import Mathlib

/-!
Verification of the koa-router request-routing engine (src/lib/router.js) and
the educational mini router against the repository's specification.

The embedding is shallow: the Router's stack is a list of `Layer` values;
middleware functions and the compiled path-to-regexp matchers are external
collaborators (spec section 1 declares them out of scope), so middleware is
represented by opaque numeric identifiers and a compiled matcher by a bundle
of functions supplied by the environment.  `src/lib/layer.js` is not present
under `src/`, so every Layer-level operation below whose doc comment starts
with "Modelled from the spec:" is translated from the specification's words
(spec section 4.1) rather than from source code.
-/

/-- A compiled path matcher, produced by the external path-to-regexp
collaborator (spec section 4.1, "PathMatcher contract"): a path test,
raw capture extraction, the ordered parameter names, a parameter binder
and a reverse URL builder. -/
structure Compiled where
  test : String → Bool
  extractCaptures : String → List String
  paramNames : List String
  paramsOf : String → List String → List (String × String) → List (String × String)
  buildUrl : List (String × String) → String

/-- One registered route (spec section 3, "Layer"): path specification,
optional name, uppercase method set, middleware chain (opaque ids),
the compiled matcher's functions, per-parameter validators and the
`end`/`ignoreCaptures` flags fixed at registration. -/
structure Layer where
  path : String
  name : Option String
  methods : List String
  stack : List Nat
  matchFn : String → Bool
  rawCaptures : String → List String
  paramsFn : String → List String → List (String × String) → List (String × String)
  urlFn : List (String × String) → String
  paramNames : List String
  validators : List (String × Nat)
  endOpt : Bool
  ignoreCaptures : Bool

/-- JavaScript truthiness of a layer name: `undefined`/`null` and the empty
string are falsy, so a layer whose stored name is absent or empty is
anonymous (src/lib/router.js lines 375 and 645 test `layer.name` directly). -/
def truthyName : Option String → Bool
  | none => false
  | some s => s != ""

/-- Modelled from the spec: lib/layer.js is absent from src/.  Per spec
section 4.1, `match(path)` delegates to the compiled matcher's test. -/
def Layer.matchPath (l : Layer) (path : String) : Bool :=
  l.matchFn path

/-- Modelled from the spec: lib/layer.js is absent from src/.  Per spec
section 4.1, `captures(path, priorCaptures)` passes `priorCaptures` through
unchanged when the layer was registered with `ignoreCaptures`, and otherwise
extracts the raw capture groups from the path. -/
def Layer.captures (l : Layer) (path : String) (prior : List String) : List String :=
  if l.ignoreCaptures then prior else l.rawCaptures path

/-- The result of `Router.prototype.match` (src/lib/router.js lines 709-744):
the layers whose path matched, the layers whose path and method matched, and
the has-route flag. -/
structure MatchResult where
  path : List Layer
  pathAndMethod : List Layer
  route : Bool

/-- Router state (src/lib/router.js lines 50-81): implemented method set,
param validators, the layer stack, and the options used by the claims
(`opts.prefix`, modelled as `optsPre` with `""` for unset, and
`opts.routerPath`). -/
structure RouterState where
  methods : List String := ["HEAD", "OPTIONS", "GET", "PUT", "PATCH", "POST", "DELETE"]
  params : List (String × Nat) := []
  stack : List Layer := []
  optsPre : String := ""
  optsRouterPath : Option String := none

/-- Loop body of `Router.prototype.match` (src/lib/router.js lines 720-741):
on a path match the layer is appended to `matched.path`; if additionally the
layer's method set is empty or contains the request method, the layer is
appended to `matched.pathAndMethod` and `matched.route` is set to true when
the method set is non-empty. -/
def matchStep (path method : String) (matched : MatchResult) (layer : Layer) : MatchResult :=
  match layer.matchFn path, layer.methods.isEmpty || layer.methods.contains method with
  | true, true =>
      { path := matched.path ++ [layer],
        pathAndMethod := matched.pathAndMethod ++ [layer],
        route := matched.route || !layer.methods.isEmpty }
  | true, false =>
      { path := matched.path ++ [layer],
        pathAndMethod := matched.pathAndMethod,
        route := matched.route }
  | false, _ => matched

/-- `Router.prototype.match` (src/lib/router.js lines 709-744): a single
linear pass over the stack in insertion order, with no early exit. -/
def RouterState.matchReq (r : RouterState) (path method : String) : MatchResult :=
  r.stack.foldl (matchStep path method) { path := [], pathAndMethod := [], route := false }

theorem matchStep_foldl (path method : String) (layers : List Layer) (acc : MatchResult) :
    layers.foldl (matchStep path method) acc =
      { path := acc.path ++ layers.filter (fun l => l.matchFn path),
        pathAndMethod := acc.pathAndMethod ++
          ((layers.filter (fun l => l.matchFn path)).filter
            (fun l => l.methods.isEmpty || l.methods.contains method)),
        route := acc.route ||
          (((layers.filter (fun l => l.matchFn path)).filter
            (fun l => l.methods.isEmpty || l.methods.contains method)).any
            (fun l => !l.methods.isEmpty)) } := by
  induction layers generalizing acc with
  | nil => simp
  | cons l ls ih =>
    rw [List.foldl_cons, ih]
    cases h1 : l.matchFn path with
    | false =>
      simp only [matchStep, h1]
      rw [List.filter_cons_of_neg (by simp only [h1]; decide)]
    | true =>
      cases h2 : (l.methods.isEmpty || l.methods.contains method) with
      | false =>
        simp only [matchStep, h1, h2]
        rw [List.filter_cons_of_pos (by exact h1), List.filter_cons_of_neg (by simp only [h2]; decide)]
        simp
      | true =>
        simp only [matchStep, h1, h2]
        rw [List.filter_cons_of_pos (by exact h1), List.filter_cons_of_pos (by exact h2)]
        simp [Bool.or_assoc]

/-- C1: `match(path, method)` scans every layer in insertion order with no
early exit; `pathMatched` is exactly the stack-ordered sublist of layers whose
path test succeeds, `pathAndMethodMatched` is its sublist of layers whose
method set is empty or contains the method, and the route flag is true iff
some layer of `pathAndMethodMatched` has a non-empty method set. -/
theorem router_match_scans_all_layers (r : RouterState) (path method : String) :
    (r.matchReq path method).path = r.stack.filter (fun l => l.matchFn path) ∧
    (r.matchReq path method).pathAndMethod =
      (r.stack.filter (fun l => l.matchFn path)).filter
        (fun l => l.methods.isEmpty || l.methods.contains method) ∧
    ((r.matchReq path method).route = true ↔
      ∃ l ∈ (r.matchReq path method).pathAndMethod, l.methods ≠ []) := by
  unfold RouterState.matchReq
  rw [matchStep_foldl]
  refine ⟨by simp, by simp, ?_⟩
  simp [List.any_eq_true]
  aesop

/-- Loop body of the mini router's `match` (src/unnamed/part_000 lines 46-57).
It differs from `matchStep` in one place: on every path-and-method match the
route flag is re-assigned `layer.methods.length !== 0` (an assignment, not a
one-way latch), so a later method-agnostic layer overwrites a `true`. -/
def miniMatchStep (path method : String) (matched : MatchResult) (layer : Layer) : MatchResult :=
  match layer.matchFn path, layer.methods.isEmpty || layer.methods.contains method with
  | true, true =>
      { path := matched.path ++ [layer],
        pathAndMethod := matched.pathAndMethod ++ [layer],
        route := !layer.methods.isEmpty }
  | true, false =>
      { path := matched.path ++ [layer],
        pathAndMethod := matched.pathAndMethod,
        route := matched.route }
  | false, _ => matched

/-- The mini router's `match` (src/unnamed/part_000 lines 39-60): same
two-phase scan as the main router, with the route-flag assignment noted on
`miniMatchStep`. -/
def miniMatch (stack : List Layer) (path method : String) : MatchResult :=
  stack.foldl (miniMatchStep path method) { path := [], pathAndMethod := [], route := false }

theorem miniMatchStep_foldl (path method : String) (layers : List Layer) (acc : MatchResult) :
    layers.foldl (miniMatchStep path method) acc =
      { path := acc.path ++ layers.filter (fun l => l.matchFn path),
        pathAndMethod := acc.pathAndMethod ++
          ((layers.filter (fun l => l.matchFn path)).filter
            (fun l => l.methods.isEmpty || l.methods.contains method)),
        route := ((layers.filter (fun l => l.matchFn path)).filter
            (fun l => l.methods.isEmpty || l.methods.contains method)).foldl
            (fun _ l => !l.methods.isEmpty) acc.route } := by
  induction layers generalizing acc with
  | nil => simp
  | cons l ls ih =>
    rw [List.foldl_cons, ih]
    cases h1 : l.matchFn path with
    | false =>
      simp only [miniMatchStep, h1]
      rw [List.filter_cons_of_neg (by simp only [h1]; decide)]
    | true =>
      cases h2 : (l.methods.isEmpty || l.methods.contains method) with
      | false =>
        simp only [miniMatchStep, h1, h2]
        rw [List.filter_cons_of_pos (by exact h1),
          List.filter_cons_of_neg (by simp only [h2]; decide)]
        simp
      | true =>
        simp only [miniMatchStep, h1, h2]
        rw [List.filter_cons_of_pos (by exact h1), List.filter_cons_of_pos (by exact h2)]
        simp

/-- Applies `f` to the last element of `ls`, or returns `b` when `ls` is
empty: the value held by a variable that a loop re-assigns at every
element. -/
def lastApply {α : Type} (f : α → Bool) (ls : List α) (b : Bool) : Bool :=
  match ls.getLast? with
  | some x => f x
  | none => b

theorem foldl_replace_getLast {α : Type} (f : α → Bool) (ls : List α) (b : Bool) :
    ls.foldl (fun _ x => f x) b = lastApply f ls b := by
  induction ls generalizing b with
  | nil => rfl
  | cons x xs ih =>
    rw [List.foldl_cons, ih]
    cases xs with
    | nil => simp [lastApply]
    | cons y ys =>
      unfold lastApply
      rw [List.getLast?_cons_cons]
      cases hy : (y :: ys).getLast? with
      | none => exact absurd (List.getLast?_eq_none_iff.mp hy) (by simp)
      | some z => rfl

theorem foldl_replace_any {α : Type} (f : α → Bool) (ls : List α) (b : Bool)
    (h : ls.foldl (fun _ x => f x) b = true) : b = true ∨ ls.any f = true := by
  induction ls generalizing b with
  | nil => exact Or.inl h
  | cons x xs ih =>
    rw [List.foldl_cons] at h
    rcases ih _ h with hx | hany
    · exact Or.inr (by simp [hx])
    · exact Or.inr (by simp [hany])

/-- A concrete layer whose matcher accepts every path; used for evaluating the
theorems on explicit inputs. -/
def plainLayer (p : String) (nm : Option String) (ms : List String) (mws : List Nat) : Layer :=
  { path := p, name := nm, methods := ms, stack := mws,
    matchFn := fun _ => true, rawCaptures := fun _ => [],
    paramsFn := fun _ _ ps => ps, urlFn := fun _ => "",
    paramNames := [], validators := [], endOpt := true, ignoreCaptures := false }

/-- C10 counterexample: on a stack holding a GET route layer followed by a
method-agnostic layer, both matching the path, the main router's match
reports a route while the mini router's match reports none — the later
empty-method layer resets the mini router's flag. -/
theorem mini_route_flag_differs :
    (RouterState.matchReq
        { stack := [plainLayer "/x" none ["GET"] [0], plainLayer "/x" none [] [1]] }
        "/x" "GET").route = true ∧
    (miniMatch [plainLayer "/x" none ["GET"] [0], plainLayer "/x" none [] [1]]
        "/x" "GET").route = false :=
  ⟨rfl, rfl⟩

/-- C10 (amended): the two match functions agree on `pathMatched` and
`pathAndMethodMatched`, but not on the route flag: the mini router's flag
equals "the LAST layer of pathAndMethodMatched has a non-empty method set"
(so a later matching method-agnostic layer resets it to false), while the
main router's flag records whether SOME such layer exists; consequently the
mini flag only implies the main flag, not conversely. -/
theorem mini_match_route_last_assignment (stack : List Layer) (path method : String) :
    ((miniMatch stack path method).path =
      (RouterState.matchReq { stack := stack } path method).path) ∧
    ((miniMatch stack path method).pathAndMethod =
      (RouterState.matchReq { stack := stack } path method).pathAndMethod) ∧
    ((miniMatch stack path method).route =
      lastApply (fun l => !l.methods.isEmpty)
        (miniMatch stack path method).pathAndMethod false) ∧
    ((miniMatch stack path method).route = true →
      (RouterState.matchReq { stack := stack } path method).route = true) := by
  simp only [miniMatch, RouterState.matchReq]
  rw [miniMatchStep_foldl, matchStep_foldl]
  refine ⟨by simp, by simp, ?_, ?_⟩
  · simp only [List.nil_append]
    exact foldl_replace_getLast _ _ _
  · intro h
    simp only at h
    rcases foldl_replace_any _ _ _ h with hb | hany
    · exact absurd hb (by decide)
    · simpa using hany

/-- The request context fields read and written by `dispatch`
(src/lib/router.js lines 347-396): request path and method, the optional
`routerPath` override, the accumulated matched-layer list (absent until a
dispatch installs it), captures, params, and the matched-route metadata. -/
structure Ctx where
  path : String
  method : String
  routerPath : Option String := none
  matched : Option (List Layer) := none
  captures : List String := []
  params : List (String × String) := []
  routerName : Option String := none
  matchedRoute : Option String := none
  matchedRouteName : Option String := none

/-- One element of the handler list handed to the external `compose`
primitive: either the anonymous binding function pushed in front of a layer
(src/lib/router.js lines 382-391) or one of the layer's own middleware. -/
inductive Step where
  | bind : Layer → Step
  | mw : Nat → Step

/-- What the dispatch handler does after updating the context: delegate to
the outer `next` continuation, or hand a layer chain to `compose` and invoke
it. -/
inductive DispatchAction where
  | next : DispatchAction
  | compose : List Step → DispatchAction

structure DispatchResult where
  ctx : Ctx
  action : DispatchAction

/-- The effective path to match (src/lib/router.js line 350):
`router.opts.routerPath || ctx.routerPath || ctx.path`. -/
def dispatchPath (router : RouterState) (ctx : Ctx) : String :=
  match router.optsRouterPath with
  | some p => p
  | none =>
    match ctx.routerPath with
    | some p => p
    | none => ctx.path

/-- The `reduce` of src/lib/router.js lines 379-393: for each matched layer,
push the binding step and then concatenate the layer's middleware chain. -/
def buildLayerChain (matchedLayers : List Layer) : List Step :=
  matchedLayers.foldl
    (fun memo layer => (memo ++ [Step.bind layer]) ++ layer.stack.map Step.mw) []

/-- Semantics of the anonymous binding function pushed in front of each
matched layer (src/lib/router.js lines 382-391): recompute the captures from
the prior captures, recompute the params from the NEW captures and the prior
params, record the layer's name, then hand over to its `next`
continuation (continuation passing is implicit in the `Step` list). -/
def applyBind (layer : Layer) (path : String) (ctx : Ctx) : Ctx :=
  let caps := layer.captures path ctx.captures
  let ps := layer.paramsFn path caps ctx.params
  { ctx with captures := caps, params := ps, routerName := layer.name }

/-- src/lib/router.js lines 362-366: push the freshly matched `matched.path`
onto `ctx.matched` when that list already exists, else install it. -/
def dispatchCtx1 (ctx : Ctx) (pathMatched : List Layer) : Ctx :=
  match ctx.matched with
  | some ms => { ctx with matched := some (ms ++ pathMatched) }
  | none => { ctx with matched := some pathMatched }

/-- src/lib/router.js lines 372-377: expose the last (most specific) layer of
`matched.pathAndMethod` on the context; the name is recorded only when
truthy. -/
def dispatchCtx2 (ctx1 : Ctx) (matchedLayers : List Layer) : Ctx :=
  match matchedLayers.getLast? with
  | some mostSpecificLayer =>
    { ctx1 with
      matchedRoute := some mostSpecificLayer.path,
      matchedRouteName :=
        if truthyName mostSpecificLayer.name then mostSpecificLayer.name
        else ctx1.matchedRouteName }
  | none => ctx1

/-- The dispatch handler returned by `Router.prototype.routes`
(src/lib/router.js lines 344-401): match, accumulate `matched.path` onto the
context, delegate via `next` when no route was found, otherwise expose the
most specific (last) matched layer's path and name and hand the built layer
chain to `compose`.  (`ctx.router = router` is a straight back-reference and
is not modelled.) -/
def dispatch (router : RouterState) (ctx : Ctx) : DispatchResult :=
  let path := dispatchPath router ctx
  let matched := router.matchReq path ctx.method
  let ctx1 := dispatchCtx1 ctx matched.path
  if matched.route = false then
    { ctx := ctx1, action := DispatchAction.next }
  else
    { ctx := dispatchCtx2 ctx1 matched.pathAndMethod,
      action := DispatchAction.compose (buildLayerChain matched.pathAndMethod) }

theorem buildLayerChain_foldl (ls : List Layer) (memo : List Step) :
    ls.foldl (fun memo layer => (memo ++ [Step.bind layer]) ++ layer.stack.map Step.mw) memo =
      memo ++ (ls.map (fun layer => Step.bind layer :: layer.stack.map Step.mw)).flatten := by
  induction ls generalizing memo with
  | nil => simp
  | cons l ls2 ih =>
    rw [List.foldl_cons, ih]
    simp

theorem buildLayerChain_eq (ls : List Layer) :
    buildLayerChain ls =
      (ls.map (fun layer => Step.bind layer :: layer.stack.map Step.mw)).flatten := by
  unfold buildLayerChain
  rw [buildLayerChain_foldl]
  simp

theorem dispatchCtx1_matched (ctx : Ctx) (pm : List Layer) :
    (dispatchCtx1 ctx pm).matched = some (ctx.matched.getD [] ++ pm) := by
  cases hm : ctx.matched <;> simp [dispatchCtx1, hm]

theorem dispatchCtx2_matched (c : Ctx) (ls : List Layer) :
    (dispatchCtx2 c ls).matched = c.matched := by
  cases hl : ls.getLast? <;> simp [dispatchCtx2, hl]

/-- C6: the dispatch handler first appends the match result's `pathMatched`
to the context's accumulated matched-layer list — extending an existing list,
or installing `pathMatched` when none exists yet — and, when `hasRoute` is
false, returns the outer `next` continuation without composing any
middleware. -/
theorem dispatch_accumulates_matched (router : RouterState) (ctx : Ctx) :
    ((dispatch router ctx).ctx.matched =
      some (ctx.matched.getD [] ++
        (router.matchReq (dispatchPath router ctx) ctx.method).path)) ∧
    (ctx.matched = none →
      (dispatch router ctx).ctx.matched =
        some ((router.matchReq (dispatchPath router ctx) ctx.method).path)) ∧
    ((router.matchReq (dispatchPath router ctx) ctx.method).route = false →
      (dispatch router ctx).action = DispatchAction.next) := by
  refine ⟨?_, ?_, ?_⟩
  · cases hr : (router.matchReq (dispatchPath router ctx) ctx.method).route with
    | false => simp [dispatch, hr, dispatchCtx1_matched]
    | true => simp [dispatch, hr, dispatchCtx2_matched, dispatchCtx1_matched]
  · intro hm
    cases hr : (router.matchReq (dispatchPath router ctx) ctx.method).route with
    | false => simp [dispatch, hr, dispatchCtx1_matched, hm]
    | true => simp [dispatch, hr, dispatchCtx2_matched, dispatchCtx1_matched, hm]
  · intro hr
    simp [dispatch, hr]

/-- C3: when the match result reports a route, dispatch exposes the LAST
layer of `pathAndMethodMatched` (by insertion order) as the matched route:
`_matchedRoute` becomes that layer's path, and `_matchedRouteName` is set
exactly when that layer carries a (truthy) name; no earlier matching layer
is exposed.  The context is assumed not to carry a previously recorded
route name. -/
theorem dispatch_exposes_last_matched_layer (router : RouterState) (ctx : Ctx) (l : Layer)
    (hr : (router.matchReq (dispatchPath router ctx) ctx.method).route = true)
    (hl : (router.matchReq (dispatchPath router ctx) ctx.method).pathAndMethod.getLast? =
      some l)
    (h0 : ctx.matchedRouteName = none) :
    (dispatch router ctx).ctx.matchedRoute = some l.path ∧
    (dispatch router ctx).ctx.matchedRouteName =
      (if truthyName l.name then l.name else none) ∧
    ((dispatch router ctx).ctx.matchedRouteName ≠ none ↔ truthyName l.name = true) := by
  have hc1 : (dispatchCtx1 ctx
      (router.matchReq (dispatchPath router ctx) ctx.method).path).matchedRouteName = none := by
    cases hm : ctx.matched <;> simp [dispatchCtx1, hm, h0]
  refine ⟨?_, ?_, ?_⟩
  · simp [dispatch, hr, dispatchCtx2, hl]
  · simp [dispatch, hr, dispatchCtx2, hl, hc1]
  · cases ht : truthyName l.name with
    | true =>
      have hn : l.name ≠ none := by
        cases hn2 : l.name
        · rw [hn2] at ht; exact absurd ht (by decide)
        · exact fun hcon => Option.noConfusion hcon
      simp [dispatch, hr, dispatchCtx2, hl, hc1, ht, hn]
    | false => simp [dispatch, hr, dispatchCtx2, hl, hc1, ht]

/-- C7: when the match reports a route, the handler list handed to the
external compose primitive is, for each layer of `pathAndMethodMatched` in
order, the binding step followed by that layer's middleware chain, all
concatenated; and the binding step sets the context's captures to
`layer.captures(path, priorCaptures)`, its params to
`layer.params(path, captures, priorParams)` computed from the new captures,
and its routerName to the layer's name. -/
theorem dispatch_compose_chain (router : RouterState) (ctx : Ctx)
    (hr : (router.matchReq (dispatchPath router ctx) ctx.method).route = true) :
    ((dispatch router ctx).action = DispatchAction.compose
      (((router.matchReq (dispatchPath router ctx) ctx.method).pathAndMethod.map
        (fun layer => Step.bind layer :: layer.stack.map Step.mw)).flatten)) ∧
    (∀ (layer : Layer) (c : Ctx),
      applyBind layer (dispatchPath router ctx) c =
        { c with
          captures := layer.captures (dispatchPath router ctx) c.captures,
          params := layer.paramsFn (dispatchPath router ctx)
            (layer.captures (dispatchPath router ctx) c.captures) c.params,
          routerName := layer.name }) := by
  constructor
  · simp [dispatch, hr, buildLayerChain_eq]
  · intro layer c
    rfl

/-- Concrete fixtures used to evaluate the theorems on explicit inputs. -/
def wLayerA : Layer := plainLayer "/a" (some "first") ["GET"] [0]

def wLayerB : Layer := plainLayer "/b" (some "second") ["GET"] [1]

def wRouter : RouterState := { stack := [wLayerA, wLayerB] }

def wCtx : Ctx := { path := "/b", method := "GET" }

theorem dispatch_exposes_last_matched_layer_witness :
    (dispatch wRouter wCtx).ctx.matchedRoute = some "/b" ∧
    (dispatch wRouter wCtx).ctx.matchedRouteName = some "second" := by
  have h := dispatch_exposes_last_matched_layer wRouter wCtx wLayerB rfl rfl rfl
  exact ⟨h.1, by rw [h.2.1]; rfl⟩

theorem dispatch_accumulates_matched_witness :
    ((dispatch wRouter wCtx).ctx.matched = some [wLayerA, wLayerB]) ∧
    ((dispatch wRouter { path := "/b", method := "POST" }).action = DispatchAction.next) := by
  constructor
  · exact (dispatch_accumulates_matched wRouter wCtx).2.1 rfl
  · exact (dispatch_accumulates_matched wRouter { path := "/b", method := "POST" }).2.2 rfl

theorem dispatch_compose_chain_witness :
    (dispatch wRouter wCtx).action = DispatchAction.compose
      [Step.bind wLayerA, Step.mw 0, Step.bind wLayerB, Step.mw 1] := by
  have h := (dispatch_compose_chain wRouter wCtx rfl).1
  exact h

theorem mini_match_route_last_assignment_witness :
    (RouterState.matchReq { stack := [wLayerA] } "/a" "GET").route = true :=
  (mini_match_route_last_assignment [wLayerA] "/a" "GET").2.2.2 rfl

/-- JavaScript object key assignment `m[k] = v` on an association list:
replace the value in place when the key exists, else append. -/
def updateAssoc (ps : List (String × Nat)) (k : String) (v : Nat) : List (String × Nat) :=
  match ps with
  | [] => [(k, v)]
  | (k2, v2) :: rest => if k2 = k then (k, v) :: rest else (k2, v2) :: updateAssoc rest k v

/-- JavaScript object property read `m[k]` on an association list. -/
def lookupParam (ps : List (String × Nat)) (k : String) : Option Nat :=
  match ps with
  | [] => none
  | (k2, v2) :: rest => if k2 = k then some v2 else lookupParam rest k

/-- Modelled from the spec: lib/layer.js is absent from src/.  Per spec
section 4.1, `Layer.param(name, middleware)` registers a validator for
`name` and is a no-op when `name` is not among the layer's parameter names;
the middleware-chain reordering it also performs is middleware semantics
outside these claims. -/
def Layer.param (l : Layer) (key : String) (mw : Nat) : Layer :=
  if l.paramNames.contains key then
    { l with validators := updateAssoc l.validators key mw }
  else l

/-- Modelled from the spec: lib/layer.js is absent from src/.  Per spec
section 4.1, `setPrefix` prepends the prefix to the stored path
specification and recompiles the matcher through the external collaborator. -/
def Layer.setPre (l : Layer) (compile : String → Compiled) (pre : String) : Layer :=
  let newPath := pre ++ l.path
  let c := compile newPath
  { l with path := newPath, matchFn := c.test, rawCaptures := c.extractCaptures,
           paramsFn := c.paramsOf, urlFn := c.buildUrl, paramNames := c.paramNames }

/-- Modelled from the spec: lib/layer.js is absent from src/.  The Layer
constructor (spec section 3) stores the path specification, the uppercased
method set, the middleware chain, the optional name and the `end` and
`ignoreCaptures` flags, and compiles the path through the external
collaborator. -/
def mkLayer (compile : String → Compiled) (path : String) (methods : List String)
    (middleware : List Nat) (nm : Option String) (endB : Bool) (ignoreCaps : Bool) : Layer :=
  let c := compile path
  { path := path, name := nm, methods := methods.map String.toUpper,
    stack := middleware, matchFn := c.test, rawCaptures := c.extractCaptures,
    paramsFn := c.paramsOf, urlFn := c.buildUrl, paramNames := c.paramNames,
    validators := [], endOpt := endB, ignoreCaptures := ignoreCaps }

/-- The option fields of `Router.prototype.register`'s `opts` argument used
by the claims (src/lib/router.js lines 581-618); `sensitive`, `strict` and
`prefix` only parameterize the external pattern compiler and are not
modelled. -/
structure RegOpts where
  name : Option String := none
  endOpt : Option Bool := none
  ignoreCaptures : Bool := false

/-- `Router.prototype.register` (src/lib/router.js lines 581-632) for a
single path string (the array-of-paths branch recurses per element and is
exercised through `use`): build the layer with `end` defaulted to true
unless explicitly false, apply the router prefix when one is set, attach
every currently-known param validator, and push the layer. -/
def RouterState.register (compile : String → Compiled) (r : RouterState) (path : String)
    (methods : List String) (middleware : List Nat) (opts : RegOpts) : RouterState :=
  let route := mkLayer compile path methods middleware opts.name
    (if opts.endOpt = some false then false else true) opts.ignoreCaptures
  let route := if r.optsPre ≠ "" then route.setPre compile r.optsPre else route
  let route := r.params.foldl (fun l kv => l.param kv.1 kv.2) route
  { r with stack := r.stack ++ [route] }

/-- `Router.prototype.param` (src/lib/router.js lines 776-782): record the
validator under its name and retroactively attach it to every layer. -/
def RouterState.param (r : RouterState) (key : String) (mw : Nat) : RouterState :=
  { r with params := updateAssoc r.params key mw,
           stack := r.stack.map (fun route => route.param key mw) }

/-- An argument of `Router.prototype.use` after the optional leading path:
plain middleware, or a nested router's dispatch function (a function `m`
with `m.router` set, src/lib/router.js line 290). -/
inductive UseArg where
  | mw : Nat → UseArg
  | routerFn : RouterState → UseArg

/-- The leading-path argument forms accepted by `Router.prototype.use`:
absent, a single string, or an array of strings. -/
inductive UsePath where
  | noPath : UsePath
  | single : String → UsePath
  | multi : List String → UsePath

/-- The path a plain `use` middleware is registered under
(src/lib/router.js line 304, `path || '(.*)'`): the given path when truthy,
else the always-matching pattern. -/
def usePathSpec (path : Option String) : String :=
  match path with
  | some p => if p = "" then "(.*)" else p
  | none => "(.*)"

/-- The per-argument body of `Router.prototype.use` (src/lib/router.js lines
288-306) after the array-of-paths case has been peeled off.  A nested
router's layers are prefixed (mount path first, then this router's own
prefix, both skipped when falsy) and pushed onto this stack; a plain
middleware is registered under the given path or the always-matching
pattern, with empty methods, `end: false`, and `ignoreCaptures` set iff no
path was given.  (The source also copies THIS router's params onto the
nested router, lines 297-301, which mutates the nested router object; that
effect on the nested router is modelled separately by
`useNestedParamsCopy`.) -/
def useStep (compile : String → Compiled) (path : Option String)
    (r : RouterState) (a : UseArg) : RouterState :=
  match a with
  | UseArg.routerFn nested =>
    { r with stack := r.stack ++ nested.stack.map (fun nl =>
        let nl2 := match path with
          | some p => if p ≠ "" then nl.setPre compile p else nl
          | none => nl
        if r.optsPre ≠ "" then nl2.setPre compile r.optsPre else nl2) }
  | UseArg.mw m =>
    r.register compile (usePathSpec path)
      [] [m] { endOpt := some false, ignoreCaptures := path.isNone }

def RouterState.useOne (compile : String → Compiled) (r : RouterState)
    (path : Option String) (args : List UseArg) : RouterState :=
  args.foldl (useStep compile path) r

/-- `Router.prototype.use` (src/lib/router.js lines 264-309): an array of
paths re-runs the call once per element; otherwise the optional leading
string path is peeled off and each remaining argument is processed by
`useOne`. -/
def RouterState.use (compile : String → Compiled) (r : RouterState)
    (p : UsePath) (args : List UseArg) : RouterState :=
  match p with
  | UsePath.noPath => r.useOne compile none args
  | UsePath.single s => r.useOne compile (some s) args
  | UsePath.multi ss => ss.foldl (fun r s => r.useOne compile (some s) args) r

/-- The state of a nested router after being mounted by `use`
(src/lib/router.js lines 297-301): the MOUNTING router's params validators
are applied to the nested router via `Router.prototype.param`. -/
def useNestedParamsCopy (parent nested : RouterState) : RouterState :=
  parent.params.foldl (fun n kv => n.param kv.1 kv.2) nested

/-- A compile function for evaluating concrete registrations: every pattern
matches every path, captures nothing and names no parameter. -/
def trivialCompile : String → Compiled :=
  fun _ => { test := fun _ => true, extractCaptures := fun _ => [],
             paramNames := [], paramsOf := fun _ _ ps => ps, buildUrl := fun _ => "" }

theorem useStep_params (compile : String → Compiled) (p : Option String)
    (r : RouterState) (a : UseArg) :
    (useStep compile p r a).params = r.params := by
  cases a <;> rfl

theorem useOne_params (compile : String → Compiled) (r : RouterState)
    (p : Option String) (args : List UseArg) :
    (r.useOne compile p args).params = r.params := by
  induction args generalizing r with
  | nil => rfl
  | cons a as ih =>
    unfold RouterState.useOne
    rw [List.foldl_cons]
    exact (ih (useStep compile p r a)).trans (useStep_params compile p r a)

theorem use_params (compile : String → Compiled) (r : RouterState)
    (p : UsePath) (args : List UseArg) :
    (r.use compile p args).params = r.params := by
  cases p with
  | noPath => exact useOne_params compile r none args
  | single s => exact useOne_params compile r (some s) args
  | multi ss =>
    induction ss generalizing r with
    | nil => rfl
    | cons s ss2 ih =>
      have hstep : r.use compile (UsePath.multi (s :: ss2)) args =
          RouterState.use compile (r.useOne compile (some s) args)
            (UsePath.multi ss2) args := rfl
      rw [hstep, ih, useOne_params]

theorem lookupParam_updateAssoc_self (ps : List (String × Nat)) (k : String) (v : Nat) :
    lookupParam (updateAssoc ps k v) k = some v := by
  induction ps with
  | nil => simp [updateAssoc, lookupParam]
  | cons kv rest ih =>
    obtain ⟨k2, v2⟩ := kv
    by_cases h : k2 = k
    · simp [updateAssoc, lookupParam, h]
    · simp [updateAssoc, lookupParam, h, ih]

theorem lookupParam_updateAssoc_other (ps : List (String × Nat)) (k : String) (v : Nat)
    (k2 : String) (h : k ≠ k2) :
    lookupParam (updateAssoc ps k v) k2 = lookupParam ps k2 := by
  induction ps with
  | nil => simp [updateAssoc, lookupParam, h]
  | cons kv rest ih =>
    obtain ⟨k3, v3⟩ := kv
    by_cases h3 : k3 = k
    · subst h3
      simp [updateAssoc, lookupParam, h, ih]
    · by_cases h4 : k3 = k2
      · subst h4
        simp [updateAssoc, lookupParam, h3]
      · simp [updateAssoc, lookupParam, h3, h4, ih]

theorem paramsCopy_skip (ps : List (String × Nat)) (n : RouterState) (k : String)
    (h : k ∉ ps.map Prod.fst) :
    lookupParam (ps.foldl (fun acc kv => acc.param kv.1 kv.2) n).params k =
      lookupParam n.params k := by
  induction ps generalizing n with
  | nil => rfl
  | cons kv rest ih =>
    obtain ⟨k0, v0⟩ := kv
    have hk0 : k0 ≠ k := by
      intro he
      exact h (by simp [he])
    have hrest : k ∉ rest.map Prod.fst := fun hin => h (by simp [hin])
    rw [List.foldl_cons, ih _ hrest]
    show lookupParam (RouterState.param n k0 v0).params k = lookupParam n.params k
    simp [RouterState.param, lookupParam_updateAssoc_other _ _ _ _ hk0]

theorem paramsCopy_present (ps : List (String × Nat)) (n : RouterState) (k : String) (v : Nat)
    (hnd : (ps.map Prod.fst).Nodup) (hin : (k, v) ∈ ps) :
    lookupParam (ps.foldl (fun acc kv => acc.param kv.1 kv.2) n).params k = some v := by
  induction ps generalizing n with
  | nil => cases hin
  | cons kv rest ih =>
    obtain ⟨k0, v0⟩ := kv
    rw [List.foldl_cons]
    rcases List.mem_cons.mp hin with heq | hmem
    · injection heq with h1 h2
      subst h1
      subst h2
      have hk : k ∉ rest.map Prod.fst := by
        rw [List.map_cons, List.nodup_cons] at hnd
        exact hnd.1
      rw [paramsCopy_skip rest _ k hk]
      show lookupParam (RouterState.param n k v).params k = some v
      simp [RouterState.param, lookupParam_updateAssoc_self]
    · have hnd2 : (rest.map Prod.fst).Nodup := by
        rw [List.map_cons, List.nodup_cons] at hnd
        exact hnd.2
      exact ih _ hnd2 hmem

/-- Fixtures for the params-copy direction: a parent router with one params
validator and a nested router with a different one. -/
def cParent : RouterState := { params := [("id", 5)] }

def cNested : RouterState := { params := [("uid", 7)] }

/-- C2 counterexample: mounting a nested router that holds a params
validator for "uid" does NOT put that validator into the mounting router's
params mapping — after the `use` call the parent's mapping still lacks the
key the nested router held before mounting. -/
theorem use_nested_params_not_copied_to_parent :
    cNested.params = [("uid", 7)] ∧
    lookupParam
      (cParent.use trivialCompile UsePath.noPath [UseArg.routerFn cNested]).params
      "uid" = none :=
  ⟨rfl, rfl⟩

/-- C2 (amended): `use` never modifies the mounting router's params mapping;
the copying runs in the OPPOSITE direction to the claim — every params
validator held by the MOUNTING router is applied to the nested router
(src/lib/router.js lines 297-301 call `m.router.param(key, ...)` for each of
the mounting router's keys). -/
theorem use_copies_parent_params_to_nested (compile : String → Compiled)
    (parent nested : RouterState) (p : UsePath) (args : List UseArg)
    (k : String) (v : Nat)
    (hnd : (parent.params.map Prod.fst).Nodup) (hin : (k, v) ∈ parent.params) :
    (parent.use compile p args).params = parent.params ∧
    lookupParam (useNestedParamsCopy parent nested).params k = some v :=
  ⟨use_params compile parent p args,
   paramsCopy_present parent.params nested k v hnd hin⟩

theorem use_copies_parent_params_to_nested_witness :
    (cParent.use trivialCompile UsePath.noPath [UseArg.routerFn cNested]).params =
      [("id", 5)] ∧
    lookupParam (useNestedParamsCopy cParent cNested).params "id" = some 5 :=
  use_copies_parent_params_to_nested trivialCompile cParent cNested UsePath.noPath
    [UseArg.routerFn cNested] "id" 5 (by simp [cParent]) (by simp [cParent])

theorem layerParam_fields (l : Layer) (k : String) (v : Nat) :
    (l.param k v).path = l.path ∧ (l.param k v).methods = l.methods ∧
    (l.param k v).stack = l.stack ∧ (l.param k v).endOpt = l.endOpt ∧
    (l.param k v).ignoreCaptures = l.ignoreCaptures := by
  unfold Layer.param
  split <;> simp

theorem layerParamFold_fields (ps : List (String × Nat)) (l : Layer) :
    (ps.foldl (fun acc kv => acc.param kv.1 kv.2) l).path = l.path ∧
    (ps.foldl (fun acc kv => acc.param kv.1 kv.2) l).methods = l.methods ∧
    (ps.foldl (fun acc kv => acc.param kv.1 kv.2) l).stack = l.stack ∧
    (ps.foldl (fun acc kv => acc.param kv.1 kv.2) l).endOpt = l.endOpt ∧
    (ps.foldl (fun acc kv => acc.param kv.1 kv.2) l).ignoreCaptures = l.ignoreCaptures := by
  induction ps generalizing l with
  | nil => exact ⟨rfl, rfl, rfl, rfl, rfl⟩
  | cons kv rest ih =>
    rw [List.foldl_cons]
    have h1 := layerParam_fields l kv.1 kv.2
    have h2 := ih (l.param kv.1 kv.2)
    exact ⟨h2.1.trans h1.1, h2.2.1.trans h1.2.1, h2.2.2.1.trans h1.2.2.1,
      h2.2.2.2.1.trans h1.2.2.2.1, h2.2.2.2.2.trans h1.2.2.2.2⟩

theorem register_stack_noPre (compile : String → Compiled) (r : RouterState)
    (path : String) (methods : List String) (mws : List Nat) (opts : RegOpts)
    (hpre : r.optsPre = "") :
    (r.register compile path methods mws opts).stack =
      r.stack ++ [r.params.foldl (fun l kv => l.param kv.1 kv.2)
        (mkLayer compile path methods mws opts.name
          (if opts.endOpt = some false then false else true) opts.ignoreCaptures)] := by
  unfold RouterState.register
  rw [hpre]
  simp

/-- C8 counterexample: `use` with an explicit empty-string path registers
the layer under the always-matching pattern `(.*)`, not under the given
path, because the source falls back via `path || '(.*)'` and the empty
string is falsy. -/
theorem use_empty_path_uses_wildcard :
    ((RouterState.use trivialCompile { } (UsePath.single "") [UseArg.mw 3]).stack.map
      (fun l => l.path)) = ["(.*)"] ∧ ("(.*)" : String) ≠ "" :=
  ⟨rfl, by decide⟩

/-- C8 (amended): a `use` call whose arguments carry no nested router stack
registers each middleware argument as one layer with an empty method set,
`end = false` (prefix match), and `ignoreCaptures` true exactly when no path
argument was given; the layer's path specification is the given path when it
is a non-empty string, and the always-matching pattern `(.*)` when no path
OR an explicit empty-string path was given (empty strings are falsy in the
source's `path || '(.*)'` fallback).  Stated for a router without its own
prefix option, which would additionally be prepended. -/
theorem use_plain_middleware_layers (compile : String → Compiled) (r : RouterState)
    (p : Option String) (ms : List Nat) (hpre : r.optsPre = "") :
    ∃ news : List Layer,
      (r.useOne compile p (ms.map UseArg.mw)).stack = r.stack ++ news ∧
      news.map (fun l => l.stack) = ms.map (fun m => [m]) ∧
      ∀ l ∈ news,
        l.methods = [] ∧ l.endOpt = false ∧ l.ignoreCaptures = p.isNone ∧
        l.path = usePathSpec p := by
  induction ms generalizing r with
  | nil =>
    refine ⟨[], by simp [RouterState.useOne], by simp, ?_⟩
    intro l hl
    cases hl
  | cons m ms2 ih =>
    have hstep : r.useOne compile p ((m :: ms2).map UseArg.mw) =
        RouterState.useOne compile (useStep compile p r (UseArg.mw m)) p
          (ms2.map UseArg.mw) := by
      unfold RouterState.useOne
      rw [List.map_cons, List.foldl_cons]
    have hpre1 : (useStep compile p r (UseArg.mw m)).optsPre = "" := hpre
    obtain ⟨news2, h1, h2, h3⟩ := ih (useStep compile p r (UseArg.mw m)) hpre1
    refine ⟨(r.params.foldl (fun l kv => l.param kv.1 kv.2)
      (mkLayer compile (usePathSpec p) [] [m] none false p.isNone)) :: news2, ?_, ?_, ?_⟩
    · rw [hstep, h1]
      have hs : (useStep compile p r (UseArg.mw m)).stack =
          r.stack ++ [r.params.foldl (fun l kv => l.param kv.1 kv.2)
            (mkLayer compile (usePathSpec p) [] [m] none false p.isNone)] :=
        register_stack_noPre compile r (usePathSpec p) [] [m]
          { endOpt := some false, ignoreCaptures := p.isNone } hpre
      rw [hs]
      simp
    · rw [List.map_cons, List.map_cons, h2]
      have hf := (layerParamFold_fields r.params
        (mkLayer compile (usePathSpec p) [] [m] none false p.isNone)).2.2.1
      rw [hf]
      rfl
    · intro l hl
      rcases List.mem_cons.mp hl with rfl | hmem
      · have hf := layerParamFold_fields r.params
          (mkLayer compile (usePathSpec p) [] [m] none false p.isNone)
        exact ⟨hf.2.1, hf.2.2.2.1, hf.2.2.2.2, hf.1⟩
      · exact h3 l hmem

theorem use_plain_middleware_layers_witness :
    ∃ news : List Layer,
      (RouterState.useOne trivialCompile { } (some "/u") ([4].map UseArg.mw)).stack =
        ({ } : RouterState).stack ++ news ∧
      news.map (fun l => l.stack) = [4].map (fun m => [m]) ∧
      ∀ l ∈ news,
        l.methods = [] ∧ l.endOpt = false ∧ l.ignoreCaptures = (some "/u").isNone ∧
        l.path = usePathSpec (some "/u") :=
  use_plain_middleware_layers trivialCompile { } (some "/u") [4] rfl

/-- `Router.prototype.route` (src/lib/router.js lines 641-651): scan the
stack for the first layer whose name is truthy and equals the requested
name; `false` (here `none`) when no such layer exists. -/
def RouterState.route (r : RouterState) (nm : String) : Option Layer :=
  r.stack.find? (fun l => truthyName l.name && l.name == some nm)

/-- `Router.prototype.url` (src/lib/router.js lines 688-697): delegate to
the named layer's `url` when the name resolves, else RETURN (not throw) an
error value naming the missing route. -/
def RouterState.url (r : RouterState) (nm : String)
    (ps : List (String × String)) : Except String String :=
  match r.route nm with
  | some route => Except.ok (route.urlFn ps)
  | none => Except.error ("No route found for name: " ++ nm)

theorem find?_none_of_all {α : Type} (p : α → Bool) (ls : List α)
    (h : ∀ x ∈ ls, p x = false) : ls.find? p = none := by
  induction ls with
  | nil => rfl
  | cons x xs ih =>
    have hx := h x (List.mem_cons_self x xs)
    rw [List.find?_cons]
    rw [hx]
    exact ih (fun y hy => h y (List.mem_cons_of_mem x hy))

theorem find?_some_of_exists {α : Type} (p : α → Bool) (ls : List α)
    (h : ∃ x ∈ ls, p x = true) : ∃ a, ls.find? p = some a ∧ p a = true := by
  induction ls with
  | nil =>
    obtain ⟨x, hx, _⟩ := h
    cases hx
  | cons x xs ih =>
    rw [List.find?_cons]
    cases hx : p x with
    | true => exact ⟨x, rfl, hx⟩
    | false =>
      obtain ⟨y, hy, hpy⟩ := h
      rcases List.mem_cons.mp hy with rfl | hmem
      · rw [hx] at hpy
        exact absurd hpy (by decide)
      · exact ih ⟨y, hmem, hpy⟩

/-- C9: for a name carried by no layer, `route(name)` returns a not-found
value (`false` in the source, `none` here) rather than throwing, and
`url(name, ...)` returns an error value that names the missing route; for a
(non-empty, hence truthy) name carried by some layer, `route(name)` returns
a layer with that name. -/
theorem route_url_unknown_name (r : RouterState) (nm : String)
    (ps : List (String × String)) :
    ((∀ l ∈ r.stack, l.name ≠ some nm) →
      r.route nm = none ∧
      r.url nm ps = Except.error ("No route found for name: " ++ nm)) ∧
    (nm ≠ "" → (∃ l ∈ r.stack, l.name = some nm) →
      ∃ l2, r.route nm = some l2 ∧ l2.name = some nm) := by
  constructor
  · intro h
    have hnone : r.route nm = none := by
      apply find?_none_of_all
      intro l hl
      have hne := h l hl
      have : (l.name == some nm) = false := by
        cases hn : l.name with
        | none => rfl
        | some s =>
          rw [hn] at hne
          simp only [beq_eq_false_iff_ne, ne_eq, Option.some.injEq]
          intro hc
          exact hne (by rw [hc])
      simp [this]
    refine ⟨hnone, ?_⟩
    unfold RouterState.url
    rw [hnone]
  · intro hne hex
    obtain ⟨l, hl, hname⟩ := hex
    have hp : (truthyName l.name && (l.name == some nm)) = true := by
      rw [hname]
      simp [truthyName, hne]
    obtain ⟨l2, hfind, hpl2⟩ :=
      find?_some_of_exists (fun l => truthyName l.name && l.name == some nm)
        r.stack ⟨l, hl, hp⟩
    refine ⟨l2, hfind, ?_⟩
    simp only [Bool.and_eq_true, beq_iff_eq] at hpl2
    exact hpl2.2

def namedLayer : Layer := plainLayer "/users" (some "user") ["GET"] [9]

def namedRouter : RouterState := { stack := [namedLayer] }

theorem route_url_unknown_name_witness :
    (namedRouter.route "nope" = none ∧
      namedRouter.url "nope" [] = Except.error "No route found for name: nope") ∧
    (∃ l2, namedRouter.route "user" = some l2 ∧ l2.name = some "user") := by
  constructor
  · exact (route_url_unknown_name namedRouter "nope" []).1
      (by
        intro l hl
        rcases List.mem_cons.mp hl with rfl | hmem
        · intro hc
          simp [namedLayer, plainLayer] at hc
        · cases hmem)
  · exact (route_url_unknown_name namedRouter "user" []).2 (by decide)
      ⟨namedLayer, List.mem_cons_self _ _, rfl⟩

/-- A value thrown by `allowedMethods` under the `throw` option: the default
http-errors NotImplemented / MethodNotAllowed constructions, or whatever
value a caller-supplied factory returned (represented opaquely). -/
inductive Throwable where
  | notImplementedDefault : Throwable
  | methodNotAllowedDefault : Throwable
  | custom : Nat → Throwable
deriving DecidableEq

/-- The options object of `Router.prototype.allowedMethods`
(src/lib/router.js lines 446-447): the `throw` flag and the optional
factories, each modelled by the (opaque) value it would return. -/
structure AmOptions where
  throwOpt : Bool := false
  notImplementedFac : Option Nat := none
  methodNotAllowedFac : Option Nat := none

/-- The context fields `allowedMethods` reads and writes after downstream
processing finished (src/lib/router.js lines 450-497): response status
(`none` = unset), request method, the accumulated matched layers, body and
the Allow header. -/
structure AmCtx where
  status : Option Nat := none
  method : String := ""
  matched : List Layer := []
  body : Option String := none
  allowHeader : Option String := none

/-- src/lib/router.js lines 452-461: the `allowed` object — the union of the
method sets of every accumulated matched layer, in first-insertion order
(JavaScript object keys). -/
def unionMethods (layers : List Layer) : List String :=
  layers.foldl
    (fun acc l => l.methods.foldl
      (fun acc m => if acc.contains m then acc else acc ++ [m]) acc)
    []

/-- The handler returned by `Router.prototype.allowedMethods`
(src/lib/router.js lines 446-499), run after `next()` resolves: when the
status is unset or 404, respond 501 (or throw Not Implemented) for a method
outside the router's implemented set; otherwise, when some methods matched,
answer OPTIONS with 200/empty body/Allow, and a method outside the union
with 405 (or throw Method Not Allowed); in all remaining cases leave the
context untouched. -/
def RouterState.allowedMethods (r : RouterState) (options : AmOptions)
    (ctx : AmCtx) : Except Throwable AmCtx :=
  if ctx.status = none ∨ ctx.status = some 404 then
    let allowedArr := unionMethods ctx.matched
    if r.methods.contains ctx.method = false then
      if options.throwOpt then
        Except.error
          (match options.notImplementedFac with
           | some v => Throwable.custom v
           | none => Throwable.notImplementedDefault)
      else
        Except.ok { ctx with status := some 501,
                             allowHeader := some (String.intercalate ", " allowedArr) }
    else if allowedArr.isEmpty = false then
      if ctx.method = "OPTIONS" then
        Except.ok { ctx with status := some 200, body := some "",
                             allowHeader := some (String.intercalate ", " allowedArr) }
      else if allowedArr.contains ctx.method = false then
        if options.throwOpt then
          Except.error
            (match options.methodNotAllowedFac with
             | some v => Throwable.custom v
             | none => Throwable.methodNotAllowedDefault)
        else
          Except.ok { ctx with status := some 405,
                               allowHeader := some (String.intercalate ", " allowedArr) }
      else Except.ok ctx
    else Except.ok ctx
  else Except.ok ctx

/-- C4: after downstream processing left the status unset or 404, for an
implemented request method and without the `throw` option: when the union of
the matched layers' methods is non-empty, an OPTIONS request is answered
with 200, an empty body and the Allow header, and a non-OPTIONS method
outside the union is answered 405 with the Allow header; when the union is
empty, neither status nor headers change. -/
theorem allowedMethods_implemented (r : RouterState) (options : AmOptions) (ctx : AmCtx)
    (hs : ctx.status = none ∨ ctx.status = some 404)
    (hm : r.methods.contains ctx.method = true)
    (ht : options.throwOpt = false) :
    (unionMethods ctx.matched ≠ [] → ctx.method = "OPTIONS" →
      r.allowedMethods options ctx =
        Except.ok { ctx with status := some 200, body := some "",
                             allowHeader :=
                               some (String.intercalate ", " (unionMethods ctx.matched)) }) ∧
    (unionMethods ctx.matched ≠ [] → ctx.method ≠ "OPTIONS" →
      (unionMethods ctx.matched).contains ctx.method = false →
      r.allowedMethods options ctx =
        Except.ok { ctx with status := some 405,
                             allowHeader :=
                               some (String.intercalate ", " (unionMethods ctx.matched)) }) ∧
    (unionMethods ctx.matched = [] → r.allowedMethods options ctx = Except.ok ctx) := by
  have hm2 : ctx.method ∈ r.methods := by simpa using hm
  refine ⟨?_, ?_, ?_⟩
  · intro hne hopt
    rw [hopt] at hm2
    simp [RouterState.allowedMethods, hs, hm2, hopt, List.isEmpty_iff, hne]
  · intro hne hopt hcon
    have hcon2 : ctx.method ∉ unionMethods ctx.matched := by simpa using hcon
    simp [RouterState.allowedMethods, hs, hm2, hopt, List.isEmpty_iff, hne, hcon2, ht]
  · intro hemp
    simp [RouterState.allowedMethods, hs, hm2, List.isEmpty_iff, hemp]

/-- C5: after downstream processing left the status unset or 404, for a
request method outside the router's implemented set: without the `throw`
option the handler responds 501 with the Allow header joining the union of
the matched layers' methods by ", "; with the `throw` option it instead
throws the value produced by the caller-supplied notImplemented factory when
one is given, and the default NotImplemented error otherwise, setting no
status itself. -/
theorem allowedMethods_not_implemented (r : RouterState) (options : AmOptions) (ctx : AmCtx)
    (hs : ctx.status = none ∨ ctx.status = some 404)
    (hm : r.methods.contains ctx.method = false) :
    (options.throwOpt = false →
      r.allowedMethods options ctx =
        Except.ok { ctx with status := some 501,
                             allowHeader :=
                               some (String.intercalate ", " (unionMethods ctx.matched)) }) ∧
    (options.throwOpt = true →
      r.allowedMethods options ctx =
        Except.error
          (match options.notImplementedFac with
           | some v => Throwable.custom v
           | none => Throwable.notImplementedDefault)) := by
  have hm2 : ctx.method ∉ r.methods := by simpa using hm
  constructor
  · intro ht
    simp [RouterState.allowedMethods, hs, hm2, ht]
  · intro ht
    simp [RouterState.allowedMethods, hs, hm2, ht]

def amLayer : Layer := plainLayer "/p" none ["GET"] [0]

def amCtxOpt : AmCtx := { status := none, method := "OPTIONS", matched := [amLayer] }

def amCtx405 : AmCtx := { status := none, method := "POST", matched := [amLayer] }

def amCtx501 : AmCtx := { status := some 404, method := "TRACE", matched := [amLayer] }

theorem allowedMethods_implemented_witness :
    (RouterState.allowedMethods { } { } amCtxOpt =
      Except.ok { amCtxOpt with status := some 200, body := some "",
                                allowHeader := some "GET" }) ∧
    (RouterState.allowedMethods { } { } amCtx405 =
      Except.ok { amCtx405 with status := some 405, allowHeader := some "GET" }) := by
  constructor
  · exact (allowedMethods_implemented { } { } amCtxOpt (Or.inl rfl) rfl rfl).1
      (by decide) rfl
  · exact (allowedMethods_implemented { } { } amCtx405 (Or.inl rfl) rfl rfl).2.1
      (by decide) (by decide) rfl

theorem allowedMethods_not_implemented_witness :
    (RouterState.allowedMethods { } { } amCtx501 =
      Except.ok { amCtx501 with status := some 501, allowHeader := some "GET" }) ∧
    (RouterState.allowedMethods { } { throwOpt := true } amCtx501 =
      Except.error Throwable.notImplementedDefault) := by
  constructor
  · exact (allowedMethods_not_implemented { } { } amCtx501 (Or.inr rfl) rfl).1 rfl
  · exact (allowedMethods_not_implemented { } { throwOpt := true } amCtx501
      (Or.inr rfl) rfl).2 rfl
